import Mathlib

/-!
Verification of the AoC 2022 day 19 resource-optimization search
(`src/bin/day19.rs`): the `ResourceBag` ledger, the `Blueprint` record,
and the recursive branch-and-bound explorer `simulate_blueprint_recursive`
driven by `simulate_blueprint`.

The embedding is a shallow one: `u64` values become `Nat` (the source's
unsigned subtractions are modelled by truncated `Nat` subtraction, and the
no-underflow claim is settled by a separate checked-subtraction
definition), the two pieces of mutable search state (`geode_totals:
HashSet<u64>` and `earliest_geode_robot_time: &mut u64`) are threaded
explicitly as a `(List Nat × Nat)` state value, and the recursion is
indexed by an explicit fuel parameter so that every definition is
executable; fuel `2 * time_remaining + 2` is proved sufficient.  The
`HashSet` is modelled as a duplicate-free list (`insert_total`); its only
observable use in the source is membership insertion followed by taking
the maximum.
-/

namespace Day19

/-- The four robot kinds of `enum RobotType`, in declaration order
(`OreRobot`, `ClayRobot`, `ObsidianRobot`, `GeodeRobot`). -/
inductive RobotType where
  | OreRobot
  | ClayRobot
  | ObsidianRobot
  | GeodeRobot
deriving DecidableEq, Repr

/-- Models `struct ResourceBag`: four `u64` counters, here `Nat`. -/
structure ResourceBag where
  ore : Nat
  clay : Nat
  obsidian : Nat
  geode : Nat
deriving DecidableEq, Repr

namespace ResourceBag

/-- Models `ResourceBag::new`. -/
def new (ore clay obsidian geode : Nat) : ResourceBag :=
  { ore := ore, clay := clay, obsidian := obsidian, geode := geode }

/-- Models `ResourceBag::fits_within`: `self.ore >= other.ore && self.clay >=
other.clay && self.obsidian >= other.obsidian && self.geode >= other.geode`. -/
def fits_within (self other : ResourceBag) : Bool :=
  decide (self.ore ≥ other.ore) && decide (self.clay ≥ other.clay)
    && decide (self.obsidian ≥ other.obsidian) && decide (self.geode ≥ other.geode)

/-- Models `ResourceBag::blank`: the all-zero bag. -/
def blank : ResourceBag :=
  { ore := 0, clay := 0, obsidian := 0, geode := 0 }

end ResourceBag

/-- Models `struct Blueprint`: an id and one cost bag per robot type. -/
structure Blueprint where
  id : Nat
  ore_robot : ResourceBag
  clay_robot : ResourceBag
  obsidian_robot : ResourceBag
  geode_robot : ResourceBag
deriving DecidableEq, Repr

/-- The cost bag of a robot type in a blueprint. -/
def robot_cost (bp : Blueprint) : RobotType → ResourceBag
  | RobotType.OreRobot => bp.ore_robot
  | RobotType.ClayRobot => bp.clay_robot
  | RobotType.ObsidianRobot => bp.obsidian_robot
  | RobotType.GeodeRobot => bp.geode_robot

/-- The `ROBOT_COMBOS` static: all combinations of the four robot types of
sizes 1, 2, 3, 4, in the order produced by `RobotType::iter().combinations(k)`
for k = 1, 2, 3, 4. -/
def ROBOT_COMBOS : List (List RobotType) :=
  [[RobotType.OreRobot], [RobotType.ClayRobot], [RobotType.ObsidianRobot],
   [RobotType.GeodeRobot],
   [RobotType.OreRobot, RobotType.ClayRobot],
   [RobotType.OreRobot, RobotType.ObsidianRobot],
   [RobotType.OreRobot, RobotType.GeodeRobot],
   [RobotType.ClayRobot, RobotType.ObsidianRobot],
   [RobotType.ClayRobot, RobotType.GeodeRobot],
   [RobotType.ObsidianRobot, RobotType.GeodeRobot],
   [RobotType.OreRobot, RobotType.ClayRobot, RobotType.ObsidianRobot],
   [RobotType.OreRobot, RobotType.ClayRobot, RobotType.GeodeRobot],
   [RobotType.OreRobot, RobotType.ObsidianRobot, RobotType.GeodeRobot],
   [RobotType.ClayRobot, RobotType.ObsidianRobot, RobotType.GeodeRobot],
   [RobotType.OreRobot, RobotType.ClayRobot, RobotType.ObsidianRobot,
    RobotType.GeodeRobot]]

/-- One step of the `resources_needed` accumulation: add the `ore`, `clay`
and `obsidian` components of one robot's cost (the source never adds the
`geode` component). -/
def cost_step (bp : Blueprint) (acc : ResourceBag) (r : RobotType) :
    ResourceBag :=
  { acc with
    ore := acc.ore + (robot_cost bp r).ore,
    clay := acc.clay + (robot_cost bp r).clay,
    obsidian := acc.obsidian + (robot_cost bp r).obsidian }

/-- The `resources_needed` accumulation in `simulate_blueprint_recursive`:
the summed cost of a combo, starting from the blank bag. -/
def combo_cost (bp : Blueprint) (combo : List RobotType) : ResourceBag :=
  combo.foldl (cost_step bp) ResourceBag.blank

/-- The `build_options` vector: the empty combo first, then every combo of
`ROBOT_COMBOS` whose summed cost fits within the current resources, in
`ROBOT_COMBOS` order. -/
def build_options (bp : Blueprint) (resource_total : ResourceBag) :
    List (List RobotType) :=
  [] :: ROBOT_COMBOS.filter
    (fun combo => resource_total.fits_within (combo_cost bp combo))

/-- One cost subtraction of the build loop: subtract the `ore`, `clay` and
`obsidian` components of one robot's cost from the stock (the build loop
never subtracts the `geode` component); truncated `Nat` subtraction models
the source's `u64` subtraction. -/
def subtract_one (bp : Blueprint) (r : RobotType) (rt : ResourceBag) :
    ResourceBag :=
  { rt with
    ore := rt.ore - (robot_cost bp r).ore,
    clay := rt.clay - (robot_cost bp r).clay,
    obsidian := rt.obsidian - (robot_cost bp r).obsidian }

/-- One iteration of `for robot in build_option`: increment the matching
`robot_construction` component and subtract the robot's cost from the
stock.  For a geode robot, first run the `earliest_geode_robot_time` check:
raise it when `time_remaining` is strictly greater, abort the whole call
(`none`) when strictly smaller. -/
def build_step (bp : Blueprint) (time_remaining : Nat)
    (acc : Option (ResourceBag × ResourceBag × Nat)) (r : RobotType) :
    Option (ResourceBag × ResourceBag × Nat) :=
  match acc with
  | none => none
  | some (rc, rt, est) =>
    match r with
    | RobotType.OreRobot =>
      some ({ rc with ore := rc.ore + 1 }, subtract_one bp RobotType.OreRobot rt,
        est)
    | RobotType.ClayRobot =>
      some ({ rc with clay := rc.clay + 1 },
        subtract_one bp RobotType.ClayRobot rt, est)
    | RobotType.ObsidianRobot =>
      some ({ rc with obsidian := rc.obsidian + 1 },
        subtract_one bp RobotType.ObsidianRobot rt, est)
    | RobotType.GeodeRobot =>
      if time_remaining > est then
        some ({ rc with geode := rc.geode + 1 },
          subtract_one bp RobotType.GeodeRobot rt, time_remaining)
      else if time_remaining < est then
        none
      else
        some ({ rc with geode := rc.geode + 1 },
          subtract_one bp RobotType.GeodeRobot rt, est)

/-- The whole `for robot in build_option` loop: process the robots of a combo
in order, starting from a blank `robot_construction`; `none` models the
source's early `return` from the earliest-geode-robot-time check.  Returns
`(robot_construction, resource_total, earliest)`. -/
def apply_build (bp : Blueprint) (time_remaining : Nat) (combo : List RobotType)
    (resource_total : ResourceBag) (earliest : Nat) :
    Option (ResourceBag × ResourceBag × Nat) :=
  combo.foldl (build_step bp time_remaining)
    (some (ResourceBag.blank, resource_total, earliest))

/-- The four `// prune` checks of `simulate_blueprint_recursive`, each of
which makes the call return when true. -/
def prune_triggers (time_remaining : Nat) (robot_total robot_construction :
    ResourceBag) : Bool :=
  (decide (time_remaining = 2) && decide (robot_total.geode = 0)
      && decide (robot_construction.geode = 0))
    || (decide (time_remaining ≤ 4) && decide (robot_construction.obsidian > 0))
    || (decide (time_remaining ≤ 7) && decide (robot_construction.clay > 0))
    || (decide (time_remaining ≤ 14) && decide (robot_construction.ore > 0))

/-- Models `HashSet::insert` on the geode-totals set, modelled on a list: add the
value only when it is not already present. -/
def insert_total (x : Nat) (totals : List Nat) : List Nat :=
  if totals.contains x then totals else x :: totals

/-- One step of the `for build_option in build_options` loop.  The
accumulator is `none` when an inner recursive call ran out of fuel, and
otherwise carries the totals list, the earliest-geode time and an
`aborted` flag recording that some earlier iteration executed one of the
source's `return` statements (which ends the whole call, so later
iterations leave the state untouched). -/
def decision_step (recur : List Nat → Nat → ResourceBag → ResourceBag →
      ResourceBag → Option (List Nat × Nat))
    (bp : Blueprint) (resource_total robot_total : ResourceBag)
    (time_remaining : Nat)
    (acc : Option (List Nat × Nat × Bool)) (combo : List RobotType) :
    Option (List Nat × Nat × Bool) :=
  match acc with
  | none => none
  | some (ts, est, true) => some (ts, est, true)
  | some (ts, est, false) =>
    match apply_build bp time_remaining combo resource_total est with
    | none => some (ts, est, true)
    | some (rc, rt, est2) =>
      if prune_triggers time_remaining robot_total rc then
        some (ts, est2, true)
      else
        match recur ts est2 rt robot_total rc with
        | none => none
        | some (ts2, est3) => some (ts2, est3, false)

/-- Models `simulate_blueprint_recursive`, indexed by fuel (first argument); `none`
means the fuel ran out (`explore_isSome_of_fuel` shows fuel
`2 * time_remaining + 2` always suffices).  The state threaded through is
the pair (geode-totals list, earliest-geode-robot time). -/
def explore (bp : Blueprint) :
    Nat → List Nat → Nat → ResourceBag → ResourceBag → ResourceBag → Nat →
      Bool → Option (List Nat × Nat)
  | 0, _, _, _, _, _, _, _ => none
  | fuel + 1, totals, earliest, resource_total, robot_total,
      robot_construction, time_remaining, skip_build =>
    if time_remaining = 0 then
      some (insert_total resource_total.geode totals, earliest)
    else
      let phase :=
        if !skip_build && decide (time_remaining > 1) then
          (build_options bp resource_total).foldl
            (decision_step
              (fun ts est rt rbt rc =>
                explore bp fuel ts est rt rbt rc time_remaining true)
              bp resource_total robot_total time_remaining)
            (some (totals, earliest, false))
        else some (totals, earliest, false)
      match phase with
      | none => none
      | some (ts, est, true) => some (ts, est)
      | some (ts, est, false) =>
        explore bp fuel ts est
          (ResourceBag.new (resource_total.ore + robot_total.ore)
            (resource_total.clay + robot_total.clay)
            (resource_total.obsidian + robot_total.obsidian)
            (resource_total.geode + robot_total.geode))
          (ResourceBag.new (robot_total.ore + robot_construction.ore)
            (robot_total.clay + robot_construction.clay)
            (robot_total.obsidian + robot_construction.obsidian)
            (robot_total.geode + robot_construction.geode))
          ResourceBag.blank (time_remaining - 1) false

/-- Models `simulate_blueprint`: seed the totals set with `0`, start from a blank
stock, one ore robot, nothing under construction and
`earliest_geode_robot_time = 0`, run the recursive explorer, and return the
maximum recorded total times the blueprint id.  `none` models the two
partial spots of the source — exhaustion of the (provably sufficient) fuel
and the `.max().unwrap()` on an (provably non-empty) empty set. -/
def simulate_blueprint (bp : Blueprint) (time_allowed : Nat) : Option Nat :=
  match explore bp (2 * time_allowed + 2) [0] 0 ResourceBag.blank
      (ResourceBag.new 1 0 0 0) ResourceBag.blank time_allowed false with
  | none => none
  | some (totals, _) => totals.max?.map (fun m => m * bp.id)

/-- Models `solve_part2`: the source ignores its input and returns `0`. -/
def solve_part2 (_input : List Blueprint) : Nat := 0


/-- The cumulative robot-by-robot stock subtraction a combo performs in the
build loop, as plain (truncated) subtraction. -/
def subtract_seq (bp : Blueprint) : List RobotType → ResourceBag → ResourceBag
  | [], rt => rt
  | r :: rest, rt => subtract_seq bp rest (subtract_one bp r rt)

/-- Checked variant of `subtract_seq`: every single component-wise
subtraction must have a minuend at least as large as the subtrahend,
otherwise the whole computation signals underflow with `none`.  This is the
instrument through which the no-underflow claim about the source's `u64`
subtractions is stated. -/
def subtract_seq_checked (bp : Blueprint) :
    List RobotType → ResourceBag → Option ResourceBag
  | [], rt => some rt
  | r :: rest, rt =>
    if (robot_cost bp r).ore ≤ rt.ore ∧ (robot_cost bp r).clay ≤ rt.clay
        ∧ (robot_cost bp r).obsidian ≤ rt.obsidian then
      subtract_seq_checked bp rest (subtract_one bp r rt)
    else none

/-- Which of the five pruning devices of `simulate_blueprint_recursive` are
active: the earliest-geode-robot-time device and the four threshold rules.
All five are active in the source; the specification discusses removing one
at a time. -/
structure RuleSet where
  earliest : Bool
  t2 : Bool
  obs4 : Bool
  clay7 : Bool
  ore14 : Bool
deriving DecidableEq, Repr

/-- The rule set with all five pruning devices active (the source's). -/
def allRules : RuleSet :=
  { earliest := true, t2 := true, obs4 := true, clay7 := true, ore14 := true }

/-- All rules except the 14-or-less ore threshold rule. -/
def minusOre14 : RuleSet := { allRules with ore14 := false }

/-- All rules except the earliest-geode-robot-time device. -/
def minusEarliest : RuleSet := { allRules with earliest := false }

/-- Rule-parameterized variant of `prune_triggers`: a deactivated rule never
fires. -/
def prune_triggers_rules (rules : RuleSet) (time_remaining : Nat)
    (robot_total robot_construction : ResourceBag) : Bool :=
  (rules.t2 && decide (time_remaining = 2) && decide (robot_total.geode = 0)
      && decide (robot_construction.geode = 0))
    || (rules.obs4 && decide (time_remaining ≤ 4)
      && decide (robot_construction.obsidian > 0))
    || (rules.clay7 && decide (time_remaining ≤ 7)
      && decide (robot_construction.clay > 0))
    || (rules.ore14 && decide (time_remaining ≤ 14)
      && decide (robot_construction.ore > 0))

/-- Rule-parameterized variant of `build_step`: with `earliest` inactive, the
geode-robot arm neither reads nor writes the earliest-geode time and never
aborts. -/
def build_step_rules (rules : RuleSet) (bp : Blueprint) (time_remaining : Nat)
    (acc : Option (ResourceBag × ResourceBag × Nat)) (r : RobotType) :
    Option (ResourceBag × ResourceBag × Nat) :=
  match acc with
  | none => none
  | some (rc, rt, est) =>
    match r with
    | RobotType.OreRobot =>
      some ({ rc with ore := rc.ore + 1 }, subtract_one bp RobotType.OreRobot rt,
        est)
    | RobotType.ClayRobot =>
      some ({ rc with clay := rc.clay + 1 },
        subtract_one bp RobotType.ClayRobot rt, est)
    | RobotType.ObsidianRobot =>
      some ({ rc with obsidian := rc.obsidian + 1 },
        subtract_one bp RobotType.ObsidianRobot rt, est)
    | RobotType.GeodeRobot =>
      if rules.earliest then
        if time_remaining > est then
          some ({ rc with geode := rc.geode + 1 },
            subtract_one bp RobotType.GeodeRobot rt, time_remaining)
        else if time_remaining < est then
          none
        else
          some ({ rc with geode := rc.geode + 1 },
            subtract_one bp RobotType.GeodeRobot rt, est)
      else
        some ({ rc with geode := rc.geode + 1 },
          subtract_one bp RobotType.GeodeRobot rt, est)

/-- Rule-parameterized variant of `apply_build`. -/
def apply_build_rules (rules : RuleSet) (bp : Blueprint) (time_remaining : Nat)
    (combo : List RobotType) (resource_total : ResourceBag) (earliest : Nat) :
    Option (ResourceBag × ResourceBag × Nat) :=
  combo.foldl (build_step_rules rules bp time_remaining)
    (some (ResourceBag.blank, resource_total, earliest))

/-- Rule-parameterized variant of `decision_step`. -/
def decision_step_rules (rules : RuleSet)
    (recur : List Nat → Nat → ResourceBag → ResourceBag → ResourceBag →
      Option (List Nat × Nat))
    (bp : Blueprint) (resource_total robot_total : ResourceBag)
    (time_remaining : Nat)
    (acc : Option (List Nat × Nat × Bool)) (combo : List RobotType) :
    Option (List Nat × Nat × Bool) :=
  match acc with
  | none => none
  | some (ts, est, true) => some (ts, est, true)
  | some (ts, est, false) =>
    match apply_build_rules rules bp time_remaining combo resource_total est with
    | none => some (ts, est, true)
    | some (rc, rt, est2) =>
      if prune_triggers_rules rules time_remaining robot_total rc then
        some (ts, est2, true)
      else
        match recur ts est2 rt robot_total rc with
        | none => none
        | some (ts2, est3) => some (ts2, est3, false)

/-- Rule-parameterized variant of `explore`, used to state what happens when
a single pruning rule is removed. -/
def explore_rules (rules : RuleSet) (bp : Blueprint) :
    Nat → List Nat → Nat → ResourceBag → ResourceBag → ResourceBag → Nat →
      Bool → Option (List Nat × Nat)
  | 0, _, _, _, _, _, _, _ => none
  | fuel + 1, totals, earliest, resource_total, robot_total,
      robot_construction, time_remaining, skip_build =>
    if time_remaining = 0 then
      some (insert_total resource_total.geode totals, earliest)
    else
      let phase :=
        if !skip_build && decide (time_remaining > 1) then
          (build_options bp resource_total).foldl
            (decision_step_rules rules
              (fun ts est rt rbt rc =>
                explore_rules rules bp fuel ts est rt rbt rc time_remaining true)
              bp resource_total robot_total time_remaining)
            (some (totals, earliest, false))
        else some (totals, earliest, false)
      match phase with
      | none => none
      | some (ts, est, true) => some (ts, est)
      | some (ts, est, false) =>
        explore_rules rules bp fuel ts est
          (ResourceBag.new (resource_total.ore + robot_total.ore)
            (resource_total.clay + robot_total.clay)
            (resource_total.obsidian + robot_total.obsidian)
            (resource_total.geode + robot_total.geode))
          (ResourceBag.new (robot_total.ore + robot_construction.ore)
            (robot_total.clay + robot_construction.clay)
            (robot_total.obsidian + robot_construction.obsidian)
            (robot_total.geode + robot_construction.geode))
          ResourceBag.blank (time_remaining - 1) false

/-- Rule-parameterized variant of `simulate_blueprint`. -/
def simulate_rules (rules : RuleSet) (bp : Blueprint) (time_allowed : Nat) :
    Option Nat :=
  match explore_rules rules bp (2 * time_allowed + 2) [0] 0 ResourceBag.blank
      (ResourceBag.new 1 0 0 0) ResourceBag.blank time_allowed false with
  | none => none
  | some (totals, _) => totals.max?.map (fun m => m * bp.id)

/-- Modelled from the claim under examination (not from the source): the
decision-loop step in which a rejected build subset is merely skipped —
iteration over the remaining subsets continues and the turn advance still
runs — instead of ending the whole call. -/
def decision_step_claim
    (recur : List Nat → Nat → ResourceBag → ResourceBag → ResourceBag →
      Option (List Nat × Nat))
    (bp : Blueprint) (resource_total robot_total : ResourceBag)
    (time_remaining : Nat)
    (acc : Option (List Nat × Nat × Bool)) (combo : List RobotType) :
    Option (List Nat × Nat × Bool) :=
  match acc with
  | none => none
  | some (ts, est, ab) =>
    match apply_build bp time_remaining combo resource_total est with
    | none => some (ts, est, ab)
    | some (rc, rt, est2) =>
      if prune_triggers time_remaining robot_total rc then
        some (ts, est2, ab)
      else
        match recur ts est2 rt robot_total rc with
        | none => none
        | some (ts2, est3) => some (ts2, est3, ab)

/-- Modelled from the claim under examination (not from the source): the
explorer with per-subset rejection, i.e. a pruned subset is abandoned but
every other surviving subset of the same decision node is still explored
and the turn advance still runs. -/
def explore_claim (bp : Blueprint) :
    Nat → List Nat → Nat → ResourceBag → ResourceBag → ResourceBag → Nat →
      Bool → Option (List Nat × Nat)
  | 0, _, _, _, _, _, _, _ => none
  | fuel + 1, totals, earliest, resource_total, robot_total,
      robot_construction, time_remaining, skip_build =>
    if time_remaining = 0 then
      some (insert_total resource_total.geode totals, earliest)
    else
      let phase :=
        if !skip_build && decide (time_remaining > 1) then
          (build_options bp resource_total).foldl
            (decision_step_claim
              (fun ts est rt rbt rc =>
                explore_claim bp fuel ts est rt rbt rc time_remaining true)
              bp resource_total robot_total time_remaining)
            (some (totals, earliest, false))
        else some (totals, earliest, false)
      match phase with
      | none => none
      | some (ts, est, _) =>
        explore_claim bp fuel ts est
          (ResourceBag.new (resource_total.ore + robot_total.ore)
            (resource_total.clay + robot_total.clay)
            (resource_total.obsidian + robot_total.obsidian)
            (resource_total.geode + robot_total.geode))
          (ResourceBag.new (robot_total.ore + robot_construction.ore)
            (robot_total.clay + robot_construction.clay)
            (robot_total.obsidian + robot_construction.obsidian)
            (robot_total.geode + robot_construction.geode))
          ResourceBag.blank (time_remaining - 1) false

/-- Modelled from the claim under examination: `simulate_blueprint` on top of
`explore_claim`. -/
def simulate_claim (bp : Blueprint) (time_allowed : Nat) : Option Nat :=
  match explore_claim bp (2 * time_allowed + 2) [0] 0 ResourceBag.blank
      (ResourceBag.new 1 0 0 0) ResourceBag.blank time_allowed false with
  | none => none
  | some (totals, _) => totals.max?.map (fun m => m * bp.id)

/-- Blueprint 1 of the worked example: ore robot 4 ore, clay robot 2 ore,
obsidian robot 3 ore + 14 clay, geode robot 2 ore + 7 obsidian. -/
def exampleBlueprint1 : Blueprint :=
  { id := 1,
    ore_robot := ResourceBag.new 4 0 0 0,
    clay_robot := ResourceBag.new 2 0 0 0,
    obsidian_robot := ResourceBag.new 3 14 0 0,
    geode_robot := ResourceBag.new 2 0 7 0 }

/-- Blueprint 2 of the worked example: ore robot 2 ore, clay robot 3 ore,
obsidian robot 3 ore + 8 clay, geode robot 3 ore + 12 obsidian. -/
def exampleBlueprint2 : Blueprint :=
  { id := 2,
    ore_robot := ResourceBag.new 2 0 0 0,
    clay_robot := ResourceBag.new 3 0 0 0,
    obsidian_robot := ResourceBag.new 3 8 0 0,
    geode_robot := ResourceBag.new 3 0 12 0 }

/-- A degenerate but parseable blueprint in which every robot is free. -/
def zeroBlueprint : Blueprint :=
  { id := 1,
    ore_robot := ResourceBag.blank,
    clay_robot := ResourceBag.blank,
    obsidian_robot := ResourceBag.blank,
    geode_robot := ResourceBag.blank }

/-- A small parseable blueprint (ore robot 1 ore, clay robot 2 ore, obsidian
robot 1 ore + 1 clay, geode robot 1 ore + 0 obsidian) on which one pruning
rule visibly changes the result at a tiny time horizon. -/
def cheapBlueprint : Blueprint :=
  { id := 1,
    ore_robot := ResourceBag.new 1 0 0 0,
    clay_robot := ResourceBag.new 2 0 0 0,
    obsidian_robot := ResourceBag.new 1 1 0 0,
    geode_robot := ResourceBag.new 1 0 0 0 }

/-- The number of occurrences of one robot type in a build combo (each combo
of `ROBOT_COMBOS` holds each type at most once). -/
def count_robot (r0 : RobotType) : List RobotType → Nat
  | [] => 0
  | r :: rest => (if r = r0 then 1 else 0) + count_robot r0 rest

/-- The absolute-time window in which the source's threshold pruning rule for
one robot type fires: `time_remaining <= 14` for an ore robot under
construction, `<= 7` for clay, `<= 4` for obsidian; the geode robot has no
threshold rule. -/
def threshold_window (r : RobotType) (time_remaining : Nat) : Prop :=
  match r with
  | RobotType.OreRobot => time_remaining ≤ 14
  | RobotType.ClayRobot => time_remaining ≤ 7
  | RobotType.ObsidianRobot => time_remaining ≤ 4
  | RobotType.GeodeRobot => False

/-- Order discipline of a decision node's option list: ahead of every combo
that contains a geode robot together with another robot type whose threshold
window is open, the singleton of that other type occurs on its own.  This is
the key ordering fact of `ROBOT_COMBOS` (singletons first): it makes a raise
of `earliest_geode_robot_time` followed by a threshold prune unreachable,
because the iteration would already have aborted at the singleton. -/
def clean_options (time_remaining : Nat) (l : List (List RobotType)) : Prop :=
  ∀ (c : List RobotType) (X : RobotType), c ∈ l → RobotType.GeodeRobot ∈ c →
    X ∈ c → threshold_window X time_remaining →
    ∃ l₁ l₂, l = l₁ ++ [X] :: l₂ ∧ c ∈ l₂



theorem fits_within_iff (stock cost : ResourceBag) :
    ResourceBag.fits_within stock cost = true ↔
      cost.ore ≤ stock.ore ∧ cost.clay ≤ stock.clay ∧
        cost.obsidian ≤ stock.obsidian ∧ cost.geode ≤ stock.geode := by
  simp [ResourceBag.fits_within, ge_iff_le, and_assoc]

theorem insert_total_mem_of_mem (x y : Nat) (totals : List Nat)
    (h : x ∈ totals) : x ∈ insert_total y totals := by
  unfold insert_total
  split
  · exact h
  · exact List.mem_cons_of_mem _ h

theorem mem_insert_total (x y : Nat) (totals : List Nat)
    (h : x ∈ insert_total y totals) : x ∈ totals ∨ x = y := by
  unfold insert_total at h
  split at h
  · exact Or.inl h
  · rcases List.mem_cons.mp h with h | h
    · exact Or.inr h
    · exact Or.inl h

theorem foldl_decision_step_aborted (recurF : List Nat → Nat → ResourceBag →
      ResourceBag → ResourceBag → Option (List Nat × Nat))
    (bp : Blueprint) (rt rbt : ResourceBag) (t : Nat) :
    ∀ (l : List (List RobotType)) (ts : List Nat) (est : Nat),
      l.foldl (decision_step recurF bp rt rbt t) (some (ts, est, true))
        = some (ts, est, true) := by
  intro l
  induction l with
  | nil => intro ts est; rfl
  | cons c rest ih =>
    intro ts est
    rw [List.foldl_cons]
    show rest.foldl (decision_step recurF bp rt rbt t)
      (decision_step recurF bp rt rbt t (some (ts, est, true)) c)
      = some (ts, est, true)
    rw [show decision_step recurF bp rt rbt t (some (ts, est, true)) c
      = some (ts, est, true) from rfl]
    exact ih ts est

/-- C2 (amended): in the source explorer, once one candidate build subset is
rejected — by the geode-robot earliest-time check or by any of the
domination-pruning rules, both of which make `decision_step` produce the
aborted state — the iteration over the remaining surviving subsets of the
same decision node is not continued: the fold ends in that aborted state no
matter what subsets remain, and the enclosing call returns it as is. -/
theorem C2_reject_aborts_node (recurF : List Nat → Nat → ResourceBag →
      ResourceBag → ResourceBag → Option (List Nat × Nat))
    (bp : Blueprint) (rt rbt : ResourceBag) (t : Nat) (ts ts2 : List Nat)
    (est est2 : Nat) (combo : List RobotType) (rest : List (List RobotType))
    (h : decision_step recurF bp rt rbt t (some (ts, est, false)) combo
      = some (ts2, est2, true)) :
    (combo :: rest).foldl (decision_step recurF bp rt rbt t)
      (some (ts, est, false)) = some (ts2, est2, true) := by
  rw [List.foldl_cons, h]
  exact foldl_decision_step_aborted recurF bp rt rbt t rest ts2 est2

/-- Closed witness for `C2_reject_aborts_node`: at the all-free blueprint
with two minutes remaining, the empty subset is rejected by the
`time_remaining == 2` rule, and the fold aborts without looking at the
remaining subsets. -/
theorem C2_reject_aborts_node_witness :
    ([([] : List RobotType), [RobotType.GeodeRobot]].foldl
      (decision_step (fun _ _ _ _ _ => none) zeroBlueprint ResourceBag.blank
        (ResourceBag.new 1 0 0 0) 2)
      (some ([0], 0, false))) = some ([0], 0, true) :=
  C2_reject_aborts_node (fun _ _ _ _ _ => none) zeroBlueprint ResourceBag.blank
    (ResourceBag.new 1 0 0 0) 2 [0] [0] 0 0 [] [[RobotType.GeodeRobot]]
    (by decide)

/-- C2 (counterexample): the claim's reading — a rejected subset is merely
skipped while the other surviving subsets of the node are still explored —
disagrees with the source explorer at the all-free blueprint with time
horizon 2: the source computes quality 0, the per-subset-rejection variant
computes quality 1. -/
theorem C2_counterexample :
    simulate_blueprint zeroBlueprint 2 = some 0
      ∧ simulate_claim zeroBlueprint 2 = some 1
      ∧ (some 0 : Option Nat) ≠ some 1 := by
  refine ⟨by decide, by decide, by decide⟩

/-- C10: `solve_part2` is the constant-zero function on every input slice of
blueprints. -/
theorem C10_solve_part2_zero (input : List Blueprint) : solve_part2 input = 0 :=
  rfl

/-- C8: `fits_within` holds exactly when each of the four components of the
cost is at most the matching component of the stock; in particular the
all-zero cost fits within every stock. -/
theorem C8_fits_within (cost stock : ResourceBag) :
    (ResourceBag.fits_within stock cost = true ↔
      cost.ore ≤ stock.ore ∧ cost.clay ≤ stock.clay ∧
        cost.obsidian ≤ stock.obsidian ∧ cost.geode ≤ stock.geode)
      ∧ ResourceBag.fits_within stock ResourceBag.blank = true := by
  constructor
  · exact fits_within_iff stock cost
  · simp [ResourceBag.fits_within, ResourceBag.blank]



theorem foldl_cost_step (bp : Blueprint) :
    ∀ (l : List RobotType) (init : ResourceBag),
      l.foldl (cost_step bp) init
        = { init with
            ore := init.ore + (combo_cost bp l).ore,
            clay := init.clay + (combo_cost bp l).clay,
            obsidian := init.obsidian + (combo_cost bp l).obsidian } := by
  intro l
  induction l with
  | nil =>
    intro init
    obtain ⟨o, c, b, g⟩ := init
    simp [combo_cost, ResourceBag.blank]
  | cons r rest ih =>
    intro init
    rw [List.foldl_cons, ih (cost_step bp init r)]
    have h2 : combo_cost bp (r :: rest)
        = { cost_step bp ResourceBag.blank r with
            ore := (cost_step bp ResourceBag.blank r).ore + (combo_cost bp rest).ore,
            clay := (cost_step bp ResourceBag.blank r).clay + (combo_cost bp rest).clay,
            obsidian := (cost_step bp ResourceBag.blank r).obsidian
              + (combo_cost bp rest).obsidian } := by
      show (r :: rest).foldl (cost_step bp) ResourceBag.blank = _
      rw [List.foldl_cons, ih (cost_step bp ResourceBag.blank r)]
    rw [h2]
    obtain ⟨o, c, b, g⟩ := init
    simp [cost_step, ResourceBag.blank]
    omega

theorem combo_cost_cons (bp : Blueprint) (r : RobotType) (rest : List RobotType) :
    (combo_cost bp (r :: rest)).ore
        = (robot_cost bp r).ore + (combo_cost bp rest).ore
      ∧ (combo_cost bp (r :: rest)).clay
        = (robot_cost bp r).clay + (combo_cost bp rest).clay
      ∧ (combo_cost bp (r :: rest)).obsidian
        = (robot_cost bp r).obsidian + (combo_cost bp rest).obsidian := by
  have h : combo_cost bp (r :: rest)
      = (rest.foldl (cost_step bp) (cost_step bp ResourceBag.blank r)) := by
    show (r :: rest).foldl (cost_step bp) ResourceBag.blank = _
    rw [List.foldl_cons]
  rw [h, foldl_cost_step bp rest (cost_step bp ResourceBag.blank r)]
  simp [cost_step, ResourceBag.blank]

theorem subtract_seq_checked_of_le (bp : Blueprint) :
    ∀ (combo : List RobotType) (rt : ResourceBag),
      (combo_cost bp combo).ore ≤ rt.ore →
      (combo_cost bp combo).clay ≤ rt.clay →
      (combo_cost bp combo).obsidian ≤ rt.obsidian →
      subtract_seq_checked bp combo rt = some (subtract_seq bp combo rt) := by
  intro combo
  induction combo with
  | nil => intro rt h1 h2 h3; rfl
  | cons r rest ih =>
    intro rt h1 h2 h3
    obtain ⟨hco, hcc, hcb⟩ := combo_cost_cons bp r rest
    rw [hco] at h1
    rw [hcc] at h2
    rw [hcb] at h3
    show (if (robot_cost bp r).ore ≤ rt.ore ∧ (robot_cost bp r).clay ≤ rt.clay
          ∧ (robot_cost bp r).obsidian ≤ rt.obsidian then
        subtract_seq_checked bp rest (subtract_one bp r rt)
      else none) = some (subtract_seq bp rest (subtract_one bp r rt))
    rw [if_pos ⟨by omega, by omega, by omega⟩]
    apply ih
    · show (combo_cost bp rest).ore ≤ rt.ore - (robot_cost bp r).ore
      omega
    · show (combo_cost bp rest).clay ≤ rt.clay - (robot_cost bp r).clay
      omega
    · show (combo_cost bp rest).obsidian ≤ rt.obsidian - (robot_cost bp r).obsidian
      omega

theorem mem_build_options (bp : Blueprint) (rt : ResourceBag)
    (combo : List RobotType) (h : combo ∈ build_options bp rt) :
    combo = [] ∨ ResourceBag.fits_within rt (combo_cost bp combo) = true := by
  unfold build_options at h
  rcases List.mem_cons.mp h with h | h
  · exact Or.inl h
  · exact Or.inr (List.mem_filter.mp h).2

theorem foldl_build_step_none (bp : Blueprint) (t : Nat) :
    ∀ (combo : List RobotType),
      combo.foldl (build_step bp t) none = none := by
  intro combo
  induction combo with
  | nil => rfl
  | cons r rest ih =>
    rw [List.foldl_cons]
    exact ih

theorem build_stock_trace (bp : Blueprint) (t : Nat) :
    ∀ (combo : List RobotType) (rc0 rt : ResourceBag) (est : Nat)
      (rc2 rt2 : ResourceBag) (est2 : Nat),
      combo.foldl (build_step bp t) (some (rc0, rt, est))
        = some (rc2, rt2, est2) →
      rt2 = subtract_seq bp combo rt := by
  intro combo
  induction combo with
  | nil =>
    intro rc0 rt est rc2 rt2 est2 h
    injection h with h
    injection h with h1 h
    injection h with h2 h3
    exact h2.symm
  | cons r rest ih =>
    intro rc0 rt est rc2 rt2 est2 h
    rw [List.foldl_cons] at h
    show rt2 = subtract_seq bp rest (subtract_one bp r rt)
    cases r with
    | OreRobot => exact ih _ _ _ _ _ _ h
    | ClayRobot => exact ih _ _ _ _ _ _ h
    | ObsidianRobot => exact ih _ _ _ _ _ _ h
    | GeodeRobot =>
      simp only [build_step] at h
      split at h
      · exact ih _ _ _ _ _ _ h
      · split at h
        · rw [foldl_build_step_none] at h
          exact absurd h (by simp)
        · exact ih _ _ _ _ _ _ h

/-- C5: every build subset the explorer recurses into (an element of
`build_options`, i.e. the empty subset or a subset whose summed cost fits
within the current stock) performs only safe subtractions: the checked
cumulative robot-by-robot subtraction, which fails on any underflow,
succeeds and agrees with the plain subtraction; moreover the stock produced
by the build loop `apply_build` is exactly that cumulative subtraction, so
no resource bag with an underflowed component is ever observed. -/
theorem C5_no_underflow (bp : Blueprint) (rt : ResourceBag)
    (combo : List RobotType) (h : combo ∈ build_options bp rt) :
    subtract_seq_checked bp combo rt = some (subtract_seq bp combo rt)
      ∧ ∀ (t est : Nat) (rc2 rt2 : ResourceBag) (est2 : Nat),
          apply_build bp t combo rt est = some (rc2, rt2, est2) →
          rt2 = subtract_seq bp combo rt := by
  constructor
  · rcases mem_build_options bp rt combo h with rfl | hf
    · rfl
    · have hcomp := (fits_within_iff rt (combo_cost bp combo)).mp hf
      exact subtract_seq_checked_of_le bp combo rt hcomp.1 hcomp.2.1 hcomp.2.2.1
  · intro t est rc2 rt2 est2 happ
    exact build_stock_trace bp t combo ResourceBag.blank rt est rc2 rt2 est2 happ

/-- Closed witness for `C5_no_underflow`: the geode-robot singleton subset is
a surviving subset at the all-free blueprint with a blank stock, and its
checked subtraction succeeds. -/
theorem C5_no_underflow_witness :
    subtract_seq_checked zeroBlueprint [RobotType.GeodeRobot] ResourceBag.blank
      = some (subtract_seq zeroBlueprint [RobotType.GeodeRobot]
        ResourceBag.blank) :=
  (C5_no_underflow zeroBlueprint ResourceBag.blank [RobotType.GeodeRobot]
    (by decide)).1



theorem explore_succ (bp : Blueprint) (fuel : Nat) (totals : List Nat)
    (est : Nat) (rt rbt rc : ResourceBag) (t : Nat) (skip : Bool) :
    explore bp (fuel + 1) totals est rt rbt rc t skip
      = if t = 0 then some (insert_total rt.geode totals, est)
        else
          match
            (if !skip && decide (t > 1) then
              (build_options bp rt).foldl
                (decision_step
                  (fun ts est2 rt2 rbt2 rc2 =>
                    explore bp fuel ts est2 rt2 rbt2 rc2 t true)
                  bp rt rbt t)
                (some (totals, est, false))
            else some (totals, est, false)) with
          | none => none
          | some (ts, e, true) => some (ts, e)
          | some (ts, e, false) =>
            explore bp fuel ts e
              (ResourceBag.new (rt.ore + rbt.ore) (rt.clay + rbt.clay)
                (rt.obsidian + rbt.obsidian) (rt.geode + rbt.geode))
              (ResourceBag.new (rbt.ore + rc.ore) (rbt.clay + rc.clay)
                (rbt.obsidian + rc.obsidian) (rbt.geode + rc.geode))
              ResourceBag.blank (t - 1) false :=
  rfl

theorem foldl_preserve {α β : Type} (p : α → Prop) (f : α → β → α)
    (hf : ∀ a b, p a → p (f a b)) :
    ∀ (l : List β) (a : α), p a → p (l.foldl f a) := by
  intro l
  induction l with
  | nil => intro a h; exact h
  | cons b rest ih =>
    intro a h
    rw [List.foldl_cons]
    exact ih _ (hf a b h)

theorem decision_step_isSome (recurF : List Nat → Nat → ResourceBag →
      ResourceBag → ResourceBag → Option (List Nat × Nat))
    (bp : Blueprint) (rt rbt : ResourceBag) (t : Nat)
    (hrec : ∀ ts est rt2 rbt2 rc2, (recurF ts est rt2 rbt2 rc2).isSome = true) :
    ∀ (acc : Option (List Nat × Nat × Bool)) (combo : List RobotType),
      acc.isSome = true →
      (decision_step recurF bp rt rbt t acc combo).isSome = true := by
  intro acc combo hacc
  obtain ⟨⟨ts, est, ab⟩, rfl⟩ := Option.isSome_iff_exists.mp hacc
  cases ab with
  | true => exact hacc
  | false =>
    simp only [decision_step]
    cases happ : apply_build bp t combo rt est with
    | none => rfl
    | some trip =>
      obtain ⟨rc2, rt2, est2⟩ := trip
      by_cases hp : prune_triggers t rbt rc2 = true
      · simp [hp]
      · simp only [Bool.not_eq_true] at hp
        simp only [hp]
        have hs := hrec ts est2 rt2 rbt rc2
        cases hr : recurF ts est2 rt2 rbt rc2 with
        | none => rw [hr] at hs; exact absurd hs (by simp)
        | some pair => simp [hr]

theorem explore_isSome_aux (bp : Blueprint) :
    ∀ (fuel : Nat) (totals : List Nat) (est : Nat) (rt rbt rc : ResourceBag)
      (t : Nat) (skip : Bool),
      2 * t + (if skip = true then 1 else 2) ≤ fuel →
      (explore bp fuel totals est rt rbt rc t skip).isSome = true := by
  intro fuel
  induction fuel with
  | zero =>
    intro _ _ _ _ _ t skip h
    exfalso
    cases skip <;> simp at h
  | succ f ih =>
    intro totals est rt rbt rc t skip h
    rw [explore_succ]
    by_cases ht : t = 0
    · rw [if_pos ht]; rfl
    · rw [if_neg ht]
      have ht1 : 1 ≤ t := Nat.one_le_iff_ne_zero.mpr ht
      by_cases hc : (!skip && decide (t > 1)) = true
      · have hskip : skip = false := by
          rcases Bool.eq_false_or_eq_true skip with hs | hs
          · rw [hs] at hc; simp at hc
          · exact hs
        rw [hskip] at h
        simp only [if_neg Bool.false_ne_true] at h
        rw [if_pos hc]
        have hstep : ∀ (acc : Option (List Nat × Nat × Bool))
            (combo : List RobotType), acc.isSome = true →
            (decision_step
              (fun ts est2 rt2 rbt2 rc2 =>
                explore bp f ts est2 rt2 rbt2 rc2 t true)
              bp rt rbt t acc combo).isSome = true := by
          intro acc combo hacc
          apply decision_step_isSome _ bp rt rbt t _ acc combo hacc
          intro ts2 est2 rt2 rbt2 rc2
          apply ih
          simp
          omega
        have hfold := foldl_preserve
          (fun (acc : Option (List Nat × Nat × Bool)) => acc.isSome = true)
          (decision_step
            (fun ts est2 rt2 rbt2 rc2 =>
              explore bp f ts est2 rt2 rbt2 rc2 t true)
            bp rt rbt t)
          hstep (build_options bp rt) (some (totals, est, false)) (by simp)
        obtain ⟨⟨ts1, e1, ab⟩, hph⟩ := Option.isSome_iff_exists.mp hfold
        rw [hph]
        cases ab with
        | false =>
          show (explore bp f ts1 e1 _ _ ResourceBag.blank (t - 1)
            false).isSome = true
          apply ih
          simp
          omega
        | true => rfl
      · rw [if_neg hc]
        show (explore bp f totals est _ _ ResourceBag.blank (t - 1)
          false).isSome = true
        apply ih
        simp
        rcases Bool.eq_false_or_eq_true skip with hs | hs
        · rw [hs] at h
          simp at h
          omega
        · rw [hs] at h hc
          simp at h hc
          omega



theorem subtract_seq_geode (bp : Blueprint) :
    ∀ (combo : List RobotType) (rt : ResourceBag),
      (subtract_seq bp combo rt).geode = rt.geode := by
  intro combo
  induction combo with
  | nil => intro rt; rfl
  | cons r rest ih =>
    intro rt
    show (subtract_seq bp rest (subtract_one bp r rt)).geode = rt.geode
    rw [ih (subtract_one bp r rt)]
    rfl

theorem apply_build_geode_eq (bp : Blueprint) (t : Nat) (combo : List RobotType)
    (rt : ResourceBag) (est : Nat) (rc2 rt2 : ResourceBag) (est2 : Nat)
    (h : apply_build bp t combo rt est = some (rc2, rt2, est2)) :
    rt2.geode = rt.geode := by
  have h2 := build_stock_trace bp t combo ResourceBag.blank rt est rc2 rt2 est2 h
  rw [h2]
  exact subtract_seq_geode bp combo rt

theorem explore_totals_extend (bp : Blueprint) :
    ∀ (fuel : Nat) (totals : List Nat) (est : Nat) (rt rbt rc : ResourceBag)
      (t : Nat) (skip : Bool) (ts : List Nat) (e : Nat),
      explore bp fuel totals est rt rbt rc t skip = some (ts, e) →
      ∀ x, x ∈ totals → x ∈ ts := by
  intro fuel
  induction fuel with
  | zero =>
    intro totals est rt rbt rc t skip ts e h
    exact Option.noConfusion h
  | succ f ih =>
    intro totals est rt rbt rc t skip ts e h x hx
    rw [explore_succ] at h
    by_cases ht : t = 0
    · rw [if_pos ht] at h
      simp only [Option.some.injEq, Prod.mk.injEq] at h
      obtain ⟨h1, _⟩ := h
      subst h1
      exact insert_total_mem_of_mem x rt.geode totals hx
    · rw [if_neg ht] at h
      by_cases hc : (!skip && decide (t > 1)) = true
      · rw [if_pos hc] at h
        cases hph : (build_options bp rt).foldl
            (decision_step
              (fun ts2 est2 rt2 rbt2 rc2 =>
                explore bp f ts2 est2 rt2 rbt2 rc2 t true)
              bp rt rbt t)
            (some (totals, est, false)) with
        | none => rw [hph] at h; exact Option.noConfusion h
        | some trip =>
          obtain ⟨ts1, e1, ab⟩ := trip
          rw [hph] at h
          have hsub : ∀ y, y ∈ totals → y ∈ ts1 := by
            have hstep : ∀ (acc : Option (List Nat × Nat × Bool))
                (combo : List RobotType),
                (∀ ts2 e2 ab2, acc = some (ts2, e2, ab2) →
                  ∀ y, y ∈ totals → y ∈ ts2) →
                ∀ ts2 e2 ab2,
                  decision_step
                    (fun ts2 est2 rt2 rbt2 rc2 =>
                      explore bp f ts2 est2 rt2 rbt2 rc2 t true)
                    bp rt rbt t acc combo = some (ts2, e2, ab2) →
                  ∀ y, y ∈ totals → y ∈ ts2 := by
              intro acc combo hp ts2 e2 ab2 heq
              cases acc with
              | none => exact Option.noConfusion heq
              | some trip0 =>
                obtain ⟨ts0, e0, ab0⟩ := trip0
                cases ab0 with
                | true =>
                  simp only [decision_step, Option.some.injEq,
                    Prod.mk.injEq] at heq
                  obtain ⟨h1, _, _⟩ := heq
                  subst h1
                  exact hp ts0 e0 true rfl
                | false =>
                  simp only [decision_step] at heq
                  cases happ : apply_build bp t combo rt e0 with
                  | none =>
                    simp only [happ, Option.some.injEq, Prod.mk.injEq] at heq
                    obtain ⟨h1, _, _⟩ := heq
                    subst h1
                    exact hp ts0 e0 false rfl
                  | some trip1 =>
                    obtain ⟨rc2, rt2, est2⟩ := trip1
                    simp only [happ] at heq
                    by_cases hpr : prune_triggers t rbt rc2 = true
                    · rw [if_pos hpr] at heq
                      simp only [Option.some.injEq, Prod.mk.injEq] at heq
                      obtain ⟨h1, _, _⟩ := heq
                      subst h1
                      exact hp ts0 e0 false rfl
                    · rw [if_neg hpr] at heq
                      cases hr : explore bp f ts0 est2 rt2 rbt rc2 t true with
                      | none =>
                        simp only [hr] at heq
                        exact Option.noConfusion heq
                      | some pr =>
                        obtain ⟨ts3, e3⟩ := pr
                        simp only [hr, Option.some.injEq,
                          Prod.mk.injEq] at heq
                        obtain ⟨h1, _, _⟩ := heq
                        subst h1
                        intro y hy
                        exact ih ts0 est2 rt2 rbt rc2 t true ts3 e3 hr y
                          (hp ts0 e0 false rfl y hy)
            have hinit : ∀ ts2 e2 ab2,
                (some (totals, est, false) :
                    Option (List Nat × Nat × Bool)) = some (ts2, e2, ab2) →
                ∀ y, y ∈ totals → y ∈ ts2 := by
              intro ts2 e2 ab2 heq
              simp only [Option.some.injEq, Prod.mk.injEq] at heq
              obtain ⟨h1, _, _⟩ := heq
              subst h1
              exact fun y hy => hy
            have hinv := foldl_preserve
              (fun (acc : Option (List Nat × Nat × Bool)) =>
                ∀ ts2 e2 ab2, acc = some (ts2, e2, ab2) →
                  ∀ y, y ∈ totals → y ∈ ts2)
              (decision_step
                (fun ts2 est2 rt2 rbt2 rc2 =>
                  explore bp f ts2 est2 rt2 rbt2 rc2 t true)
                bp rt rbt t)
              hstep (build_options bp rt) (some (totals, est, false)) hinit
            exact hinv ts1 e1 ab hph
          cases ab with
          | true =>
            simp only [Option.some.injEq, Prod.mk.injEq] at h
            obtain ⟨h1, _⟩ := h
            subst h1
            exact hsub x hx
          | false =>
            exact ih ts1 e1 _ _ ResourceBag.blank (t - 1) false ts e h x
              (hsub x hx)
      · rw [if_neg hc] at h
        exact ih totals est _ _ ResourceBag.blank (t - 1) false ts e h x hx



theorem explore_totals_lower (bp : Blueprint) :
    ∀ (fuel : Nat) (totals : List Nat) (est : Nat) (rt rbt rc : ResourceBag)
      (t : Nat) (skip : Bool) (ts : List Nat) (e : Nat),
      explore bp fuel totals est rt rbt rc t skip = some (ts, e) →
      ∀ x, x ∈ ts → x ∈ totals ∨ rt.geode ≤ x := by
  intro fuel
  induction fuel with
  | zero =>
    intro totals est rt rbt rc t skip ts e h
    exact Option.noConfusion h
  | succ f ih =>
    intro totals est rt rbt rc t skip ts e h x hx
    rw [explore_succ] at h
    by_cases ht : t = 0
    · rw [if_pos ht] at h
      simp only [Option.some.injEq, Prod.mk.injEq] at h
      obtain ⟨h1, _⟩ := h
      subst h1
      rcases mem_insert_total x rt.geode totals hx with hm | hm
      · exact Or.inl hm
      · exact Or.inr (le_of_eq hm.symm)
    · rw [if_neg ht] at h
      by_cases hc : (!skip && decide (t > 1)) = true
      · rw [if_pos hc] at h
        cases hph : (build_options bp rt).foldl
            (decision_step
              (fun ts2 est2 rt2 rbt2 rc2 =>
                explore bp f ts2 est2 rt2 rbt2 rc2 t true)
              bp rt rbt t)
            (some (totals, est, false)) with
        | none => rw [hph] at h; exact Option.noConfusion h
        | some trip =>
          obtain ⟨ts1, e1, ab⟩ := trip
          rw [hph] at h
          have hsub : ∀ y, y ∈ ts1 → y ∈ totals ∨ rt.geode ≤ y := by
            have hstep : ∀ (acc : Option (List Nat × Nat × Bool))
                (combo : List RobotType),
                (∀ ts2 e2 ab2, acc = some (ts2, e2, ab2) →
                  ∀ y, y ∈ ts2 → y ∈ totals ∨ rt.geode ≤ y) →
                ∀ ts2 e2 ab2,
                  decision_step
                    (fun ts2 est2 rt2 rbt2 rc2 =>
                      explore bp f ts2 est2 rt2 rbt2 rc2 t true)
                    bp rt rbt t acc combo = some (ts2, e2, ab2) →
                  ∀ y, y ∈ ts2 → y ∈ totals ∨ rt.geode ≤ y := by
              intro acc combo hp ts2 e2 ab2 heq
              cases acc with
              | none => exact Option.noConfusion heq
              | some trip0 =>
                obtain ⟨ts0, e0, ab0⟩ := trip0
                cases ab0 with
                | true =>
                  simp only [decision_step, Option.some.injEq,
                    Prod.mk.injEq] at heq
                  obtain ⟨h1, _, _⟩ := heq
                  subst h1
                  exact hp ts0 e0 true rfl
                | false =>
                  simp only [decision_step] at heq
                  cases happ : apply_build bp t combo rt e0 with
                  | none =>
                    simp only [happ, Option.some.injEq, Prod.mk.injEq] at heq
                    obtain ⟨h1, _, _⟩ := heq
                    subst h1
                    exact hp ts0 e0 false rfl
                  | some trip1 =>
                    obtain ⟨rc2, rt2, est2⟩ := trip1
                    simp only [happ] at heq
                    by_cases hpr : prune_triggers t rbt rc2 = true
                    · rw [if_pos hpr] at heq
                      simp only [Option.some.injEq, Prod.mk.injEq] at heq
                      obtain ⟨h1, _, _⟩ := heq
                      subst h1
                      exact hp ts0 e0 false rfl
                    · rw [if_neg hpr] at heq
                      cases hr : explore bp f ts0 est2 rt2 rbt rc2 t true with
                      | none =>
                        simp only [hr] at heq
                        exact Option.noConfusion heq
                      | some pr =>
                        obtain ⟨ts3, e3⟩ := pr
                        simp only [hr, Option.some.injEq,
                          Prod.mk.injEq] at heq
                        obtain ⟨h1, _, _⟩ := heq
                        subst h1
                        intro y hy
                        have hgeq : rt2.geode = rt.geode :=
                          apply_build_geode_eq bp t combo rt e0 rc2 rt2 est2
                            happ
                        rcases ih ts0 est2 rt2 rbt rc2 t true ts3 e3 hr y hy
                          with hm | hm
                        · exact hp ts0 e0 false rfl y hm
                        · rw [hgeq] at hm
                          exact Or.inr hm
            have hinit : ∀ ts2 e2 ab2,
                (some (totals, est, false) :
                    Option (List Nat × Nat × Bool)) = some (ts2, e2, ab2) →
                ∀ y, y ∈ ts2 → y ∈ totals ∨ rt.geode ≤ y := by
              intro ts2 e2 ab2 heq
              simp only [Option.some.injEq, Prod.mk.injEq] at heq
              obtain ⟨h1, _, _⟩ := heq
              subst h1
              exact fun y hy => Or.inl hy
            have hinv := foldl_preserve
              (fun (acc : Option (List Nat × Nat × Bool)) =>
                ∀ ts2 e2 ab2, acc = some (ts2, e2, ab2) →
                  ∀ y, y ∈ ts2 → y ∈ totals ∨ rt.geode ≤ y)
              (decision_step
                (fun ts2 est2 rt2 rbt2 rc2 =>
                  explore bp f ts2 est2 rt2 rbt2 rc2 t true)
                bp rt rbt t)
              hstep (build_options bp rt) (some (totals, est, false)) hinit
            exact hinv ts1 e1 ab hph
          cases ab with
          | true =>
            simp only [Option.some.injEq, Prod.mk.injEq] at h
            obtain ⟨h1, _⟩ := h
            subst h1
            exact hsub x hx
          | false =>
            rcases ih ts1 e1 _ _ ResourceBag.blank (t - 1) false ts e h x hx
              with hm | hm
            · exact hsub x hm
            · refine Or.inr (le_trans ?_ hm)
              show rt.geode ≤ (ResourceBag.new (rt.ore + rbt.ore)
                (rt.clay + rbt.clay) (rt.obsidian + rbt.obsidian)
                (rt.geode + rbt.geode)).geode
              show rt.geode ≤ rt.geode + rbt.geode
              exact Nat.le_add_right _ _
      · rw [if_neg hc] at h
        rcases ih totals est _ _ ResourceBag.blank (t - 1) false ts e h x hx
          with hm | hm
        · exact Or.inl hm
        · refine Or.inr (le_trans ?_ hm)
          show rt.geode ≤ rt.geode + rbt.geode
          exact Nat.le_add_right _ _

/-- C7: the recursive explorer terminates on every input: the explored
process is depth-bounded in the time budget, and fuel linear in
`time_remaining` (namely `2 * time_remaining + 2`, one step per decision
phase and one per turn advance, plus the terminal leaf) always suffices for
`explore` to deliver a result. -/
theorem C7_explorer_terminates (bp : Blueprint) (fuel : Nat)
    (totals : List Nat) (est : Nat) (rt rbt rc : ResourceBag) (t : Nat)
    (skip : Bool) (h : 2 * t + 2 ≤ fuel) :
    (explore bp fuel totals est rt rbt rc t skip).isSome = true := by
  apply explore_isSome_aux
  cases skip <;> simp <;> omega

/-- Closed witness for `C7_explorer_terminates` at a concrete input. -/
theorem C7_explorer_terminates_witness :
    (explore zeroBlueprint 4 [0] 0 ResourceBag.blank
      (ResourceBag.new 1 0 0 0) ResourceBag.blank 1 false).isSome = true :=
  C7_explorer_terminates zeroBlueprint 4 [0] 0 ResourceBag.blank
    (ResourceBag.new 1 0 0 0) ResourceBag.blank 1 false (by decide)

/-- C6: the result set is seeded with `0` before the search begins and the
search only ever adds further totals, so the maximum taken at the end of
`simulate_blueprint` is always defined (the `unwrap` never panics) and
`simulate_blueprint` always returns a value. -/
theorem C6_simulate_total (bp : Blueprint) (t : Nat) :
    (simulate_blueprint bp t).isSome = true := by
  unfold simulate_blueprint
  have h1 := explore_isSome_aux bp (2 * t + 2) [0] 0 ResourceBag.blank
    (ResourceBag.new 1 0 0 0) ResourceBag.blank t false (by simp)
  obtain ⟨⟨ts, e⟩, hres⟩ := Option.isSome_iff_exists.mp h1
  rw [hres]
  have h0 : (0 : Nat) ∈ ts :=
    explore_totals_extend bp (2 * t + 2) [0] 0 ResourceBag.blank
      (ResourceBag.new 1 0 0 0) ResourceBag.blank t false ts e hres 0
      (by simp)
  have hne : ts ≠ [] := by
    intro hnil
    rw [hnil] at h0
    exact absurd h0 (by simp)
  cases hmax : ts.max? with
  | none => exact absurd (List.max?_eq_none_iff.mp hmax) hne
  | some m => simp [hmax]

/-- C9: the geode component of the stock never decreases along any explored
path: the build loop never charges geodes (its stock output has the same
geode component as its input), and every total the explorer adds to the
result set is at least the geode stock of the call that added it. -/
theorem C9_geode_monotone (bp : Blueprint) (fuel : Nat) (totals : List Nat)
    (est : Nat) (rt rbt rc : ResourceBag) (t : Nat) (skip : Bool)
    (ts : List Nat) (e : Nat)
    (h : explore bp fuel totals est rt rbt rc t skip = some (ts, e)) :
    (∀ x, x ∈ ts → x ∈ totals ∨ rt.geode ≤ x)
      ∧ ∀ (combo : List RobotType) (est2 : Nat) (rc2 rt2 : ResourceBag)
          (est3 : Nat),
          apply_build bp t combo rt est2 = some (rc2, rt2, est3) →
          rt2.geode = rt.geode := by
  constructor
  · exact explore_totals_lower bp fuel totals est rt rbt rc t skip ts e h
  · intro combo est2 rc2 rt2 est3 happ
    exact apply_build_geode_eq bp t combo rt est2 rc2 rt2 est3 happ

/-- Closed witness for `C9_geode_monotone` at a concrete input. -/
theorem C9_geode_monotone_witness :
    (0 : Nat) ∈ ([0] : List Nat) ∨ ResourceBag.blank.geode ≤ 0 :=
  (C9_geode_monotone zeroBlueprint 4 [0] 0 ResourceBag.blank
    (ResourceBag.new 1 0 0 0) ResourceBag.blank 1 false [0] 0 (by decide)).1
    0 (by decide)

set_option maxRecDepth 1000000 in
/-- C1 (supporting evidence for the code bug): evaluating the source search
at both example blueprints with a reduced horizon of 19 minutes already
yields quality 0 — no geode is ever banked by the pruned search — whereas
optimal schedules at 19 minutes bank one geode each (qualities 1 and 2),
and the claimed values at horizon 24 are 9 and 24.  The time horizon 24 of
the claim is out of reach of kernel evaluation (the search visits tens of
millions of nodes there), but the same return-instead-of-continue pruning
behaviour drives both results to zero. -/
theorem C1_code_quality_zero :
    simulate_blueprint exampleBlueprint1 19 = some 0
      ∧ simulate_blueprint exampleBlueprint2 19 = some 0 :=
  ⟨by decide, by decide⟩



theorem explore_rules_succ (rules : RuleSet) (bp : Blueprint) (fuel : Nat)
    (totals : List Nat) (est : Nat) (rt rbt rc : ResourceBag) (t : Nat)
    (skip : Bool) :
    explore_rules rules bp (fuel + 1) totals est rt rbt rc t skip
      = if t = 0 then some (insert_total rt.geode totals, est)
        else
          match
            (if !skip && decide (t > 1) then
              (build_options bp rt).foldl
                (decision_step_rules rules
                  (fun ts est2 rt2 rbt2 rc2 =>
                    explore_rules rules bp fuel ts est2 rt2 rbt2 rc2 t true)
                  bp rt rbt t)
                (some (totals, est, false))
            else some (totals, est, false)) with
          | none => none
          | some (ts, e, true) => some (ts, e)
          | some (ts, e, false) =>
            explore_rules rules bp fuel ts e
              (ResourceBag.new (rt.ore + rbt.ore) (rt.clay + rbt.clay)
                (rt.obsidian + rbt.obsidian) (rt.geode + rbt.geode))
              (ResourceBag.new (rbt.ore + rc.ore) (rbt.clay + rc.clay)
                (rbt.obsidian + rc.obsidian) (rbt.geode + rc.geode))
              ResourceBag.blank (t - 1) false :=
  rfl

theorem decision_step_rules_isSome (rules : RuleSet)
    (recurF : List Nat → Nat → ResourceBag → ResourceBag → ResourceBag →
      Option (List Nat × Nat))
    (bp : Blueprint) (rt rbt : ResourceBag) (t : Nat)
    (hrec : ∀ ts est rt2 rbt2 rc2, (recurF ts est rt2 rbt2 rc2).isSome = true) :
    ∀ (acc : Option (List Nat × Nat × Bool)) (combo : List RobotType),
      acc.isSome = true →
      (decision_step_rules rules recurF bp rt rbt t acc combo).isSome
        = true := by
  intro acc combo hacc
  obtain ⟨⟨ts, est, ab⟩, rfl⟩ := Option.isSome_iff_exists.mp hacc
  cases ab with
  | true => exact hacc
  | false =>
    simp only [decision_step_rules]
    cases happ : apply_build_rules rules bp t combo rt est with
    | none => rfl
    | some trip =>
      obtain ⟨rc2, rt2, est2⟩ := trip
      by_cases hp : prune_triggers_rules rules t rbt rc2 = true
      · simp [hp]
      · simp only [Bool.not_eq_true] at hp
        simp only [hp]
        have hs := hrec ts est2 rt2 rbt rc2
        cases hr : recurF ts est2 rt2 rbt rc2 with
        | none => rw [hr] at hs; exact absurd hs (by simp)
        | some pair => simp [hr]

theorem explore_rules_isSome_aux (rules : RuleSet) (bp : Blueprint) :
    ∀ (fuel : Nat) (totals : List Nat) (est : Nat) (rt rbt rc : ResourceBag)
      (t : Nat) (skip : Bool),
      2 * t + (if skip = true then 1 else 2) ≤ fuel →
      (explore_rules rules bp fuel totals est rt rbt rc t skip).isSome
        = true := by
  intro fuel
  induction fuel with
  | zero =>
    intro _ _ _ _ _ t skip h
    exfalso
    cases skip <;> simp at h
  | succ f ih =>
    intro totals est rt rbt rc t skip h
    rw [explore_rules_succ]
    by_cases ht : t = 0
    · rw [if_pos ht]; rfl
    · rw [if_neg ht]
      have ht1 : 1 ≤ t := Nat.one_le_iff_ne_zero.mpr ht
      by_cases hc : (!skip && decide (t > 1)) = true
      · have hskip : skip = false := by
          rcases Bool.eq_false_or_eq_true skip with hs | hs
          · rw [hs] at hc; simp at hc
          · exact hs
        rw [hskip] at h
        simp at h
        rw [if_pos hc]
        have hstep : ∀ (acc : Option (List Nat × Nat × Bool))
            (combo : List RobotType), acc.isSome = true →
            (decision_step_rules rules
              (fun ts est2 rt2 rbt2 rc2 =>
                explore_rules rules bp f ts est2 rt2 rbt2 rc2 t true)
              bp rt rbt t acc combo).isSome = true := by
          intro acc combo hacc
          apply decision_step_rules_isSome rules _ bp rt rbt t _ acc combo hacc
          intro ts2 est2 rt2 rbt2 rc2
          apply ih
          simp
          omega
        have hfold := foldl_preserve
          (fun (acc : Option (List Nat × Nat × Bool)) => acc.isSome = true)
          (decision_step_rules rules
            (fun ts est2 rt2 rbt2 rc2 =>
              explore_rules rules bp f ts est2 rt2 rbt2 rc2 t true)
            bp rt rbt t)
          hstep (build_options bp rt) (some (totals, est, false)) (by simp)
        obtain ⟨⟨ts1, e1, ab⟩, hph⟩ := Option.isSome_iff_exists.mp hfold
        rw [hph]
        cases ab with
        | false =>
          show (explore_rules rules bp f ts1 e1 _ _ ResourceBag.blank (t - 1)
            false).isSome = true
          apply ih
          simp
          omega
        | true => rfl
      · rw [if_neg hc]
        show (explore_rules rules bp f totals est _ _ ResourceBag.blank (t - 1)
          false).isSome = true
        apply ih
        simp
        rcases Bool.eq_false_or_eq_true skip with hs | hs
        · rw [hs] at h
          simp at h
          omega
        · rw [hs] at h hc
          simp at h hc
          omega

theorem explore_rules_totals_extend (rules : RuleSet) (bp : Blueprint) :
    ∀ (fuel : Nat) (totals : List Nat) (est : Nat) (rt rbt rc : ResourceBag)
      (t : Nat) (skip : Bool) (ts : List Nat) (e : Nat),
      explore_rules rules bp fuel totals est rt rbt rc t skip = some (ts, e) →
      ∀ x, x ∈ totals → x ∈ ts := by
  intro fuel
  induction fuel with
  | zero =>
    intro totals est rt rbt rc t skip ts e h
    exact Option.noConfusion h
  | succ f ih =>
    intro totals est rt rbt rc t skip ts e h x hx
    rw [explore_rules_succ] at h
    by_cases ht : t = 0
    · rw [if_pos ht] at h
      simp only [Option.some.injEq, Prod.mk.injEq] at h
      obtain ⟨h1, _⟩ := h
      subst h1
      exact insert_total_mem_of_mem x rt.geode totals hx
    · rw [if_neg ht] at h
      by_cases hc : (!skip && decide (t > 1)) = true
      · rw [if_pos hc] at h
        cases hph : (build_options bp rt).foldl
            (decision_step_rules rules
              (fun ts2 est2 rt2 rbt2 rc2 =>
                explore_rules rules bp f ts2 est2 rt2 rbt2 rc2 t true)
              bp rt rbt t)
            (some (totals, est, false)) with
        | none => rw [hph] at h; exact Option.noConfusion h
        | some trip =>
          obtain ⟨ts1, e1, ab⟩ := trip
          rw [hph] at h
          have hsub : ∀ y, y ∈ totals → y ∈ ts1 := by
            have hstep : ∀ (acc : Option (List Nat × Nat × Bool))
                (combo : List RobotType),
                (∀ ts2 e2 ab2, acc = some (ts2, e2, ab2) →
                  ∀ y, y ∈ totals → y ∈ ts2) →
                ∀ ts2 e2 ab2,
                  decision_step_rules rules
                    (fun ts2 est2 rt2 rbt2 rc2 =>
                      explore_rules rules bp f ts2 est2 rt2 rbt2 rc2 t true)
                    bp rt rbt t acc combo = some (ts2, e2, ab2) →
                  ∀ y, y ∈ totals → y ∈ ts2 := by
              intro acc combo hp ts2 e2 ab2 heq
              cases acc with
              | none => exact Option.noConfusion heq
              | some trip0 =>
                obtain ⟨ts0, e0, ab0⟩ := trip0
                cases ab0 with
                | true =>
                  simp only [decision_step_rules, Option.some.injEq,
                    Prod.mk.injEq] at heq
                  obtain ⟨h1, _, _⟩ := heq
                  subst h1
                  exact hp ts0 e0 true rfl
                | false =>
                  simp only [decision_step_rules] at heq
                  cases happ : apply_build_rules rules bp t combo rt e0 with
                  | none =>
                    simp only [happ, Option.some.injEq, Prod.mk.injEq] at heq
                    obtain ⟨h1, _, _⟩ := heq
                    subst h1
                    exact hp ts0 e0 false rfl
                  | some trip1 =>
                    obtain ⟨rc2, rt2, est2⟩ := trip1
                    simp only [happ] at heq
                    by_cases hpr : prune_triggers_rules rules t rbt rc2 = true
                    · rw [if_pos hpr] at heq
                      simp only [Option.some.injEq, Prod.mk.injEq] at heq
                      obtain ⟨h1, _, _⟩ := heq
                      subst h1
                      exact hp ts0 e0 false rfl
                    · rw [if_neg hpr] at heq
                      cases hr : explore_rules rules bp f ts0 est2 rt2 rbt rc2
                          t true with
                      | none =>
                        simp only [hr] at heq
                        exact Option.noConfusion heq
                      | some pr =>
                        obtain ⟨ts3, e3⟩ := pr
                        simp only [hr, Option.some.injEq,
                          Prod.mk.injEq] at heq
                        obtain ⟨h1, _, _⟩ := heq
                        subst h1
                        intro y hy
                        exact ih ts0 est2 rt2 rbt rc2 t true ts3 e3 hr y
                          (hp ts0 e0 false rfl y hy)
            have hinit : ∀ ts2 e2 ab2,
                (some (totals, est, false) :
                    Option (List Nat × Nat × Bool)) = some (ts2, e2, ab2) →
                ∀ y, y ∈ totals → y ∈ ts2 := by
              intro ts2 e2 ab2 heq
              simp only [Option.some.injEq, Prod.mk.injEq] at heq
              obtain ⟨h1, _, _⟩ := heq
              subst h1
              exact fun y hy => hy
            have hinv := foldl_preserve
              (fun (acc : Option (List Nat × Nat × Bool)) =>
                ∀ ts2 e2 ab2, acc = some (ts2, e2, ab2) →
                  ∀ y, y ∈ totals → y ∈ ts2)
              (decision_step_rules rules
                (fun ts2 est2 rt2 rbt2 rc2 =>
                  explore_rules rules bp f ts2 est2 rt2 rbt2 rc2 t true)
                bp rt rbt t)
              hstep (build_options bp rt) (some (totals, est, false)) hinit
            exact hinv ts1 e1 ab hph
          cases ab with
          | true =>
            simp only [Option.some.injEq, Prod.mk.injEq] at h
            obtain ⟨h1, _⟩ := h
            subst h1
            exact hsub x hx
          | false =>
            exact ih ts1 e1 _ _ ResourceBag.blank (t - 1) false ts e h x
              (hsub x hx)
      · rw [if_neg hc] at h
        exact ih totals est _ _ ResourceBag.blank (t - 1) false ts e h x hx

theorem prune_triggers_minusEarliest (t : Nat) (rbt rc : ResourceBag) :
    prune_triggers_rules minusEarliest t rbt rc = prune_triggers t rbt rc := by
  simp [prune_triggers_rules, prune_triggers, minusEarliest, allRules]

theorem build_step_minusEarliest (bp : Blueprint) (t : Nat) :
    ∀ (combo : List RobotType) (rc0 rt : ResourceBag) (est est0 : Nat)
      (rc2 rt2 : ResourceBag) (est2 : Nat),
      combo.foldl (build_step bp t) (some (rc0, rt, est))
        = some (rc2, rt2, est2) →
      combo.foldl (build_step_rules minusEarliest bp t) (some (rc0, rt, est0))
        = some (rc2, rt2, est0) := by
  intro combo
  induction combo with
  | nil =>
    intro rc0 rt est est0 rc2 rt2 est2 h
    simp only [List.foldl_nil, Option.some.injEq, Prod.mk.injEq] at h
    obtain ⟨h1, h2, _⟩ := h
    subst h1
    subst h2
    rfl
  | cons r rest ih =>
    intro rc0 rt est est0 rc2 rt2 est2 h
    rw [List.foldl_cons] at h
    rw [List.foldl_cons]
    cases r with
    | OreRobot => exact ih _ _ _ _ _ _ _ h
    | ClayRobot => exact ih _ _ _ _ _ _ _ h
    | ObsidianRobot => exact ih _ _ _ _ _ _ _ h
    | GeodeRobot =>
      have hstep : build_step_rules minusEarliest bp t
          (some (rc0, rt, est0)) RobotType.GeodeRobot
          = some ({ rc0 with geode := rc0.geode + 1 },
              subtract_one bp RobotType.GeodeRobot rt, est0) := by
        simp [build_step_rules, minusEarliest, allRules]
      rw [hstep]
      simp only [build_step] at h
      split at h
      · exact ih _ _ _ _ _ _ _ h
      · split at h
        · rw [foldl_build_step_none] at h
          exact Option.noConfusion h
        · exact ih _ _ _ _ _ _ _ h

theorem apply_build_minusEarliest (bp : Blueprint) (t : Nat)
    (combo : List RobotType) (rt : ResourceBag) (est est0 : Nat)
    (rc2 rt2 : ResourceBag) (est2 : Nat)
    (h : apply_build bp t combo rt est = some (rc2, rt2, est2)) :
    apply_build_rules minusEarliest bp t combo rt est0
      = some (rc2, rt2, est0) :=
  build_step_minusEarliest bp t combo ResourceBag.blank rt est est0 rc2 rt2
    est2 h



theorem insert_total_mem_self (y : Nat) (l : List Nat) :
    y ∈ insert_total y l := by
  unfold insert_total
  split
  · next hc => exact List.mem_of_elem_eq_true hc
  · exact List.mem_cons_self y l

theorem foldl_rel {α β γ : Type} (R : α → γ → Prop) (F : α → β → α)
    (G : γ → β → γ) (hstep : ∀ a c b, R a c → R (F a b) (G c b)) :
    ∀ (l : List β) (a : α) (c : γ), R a c → R (l.foldl F a) (l.foldl G c) := by
  intro l
  induction l with
  | nil => intro a c h; exact h
  | cons b rest ih =>
    intro a c h
    rw [List.foldl_cons, List.foldl_cons]
    exact ih _ _ (hstep a c b h)

theorem apply_build_rules_mE_isSome (bp : Blueprint) (t : Nat) :
    ∀ (combo : List RobotType) (rc0 rt : ResourceBag) (est : Nat),
      ∃ (rcx rtx : ResourceBag),
        combo.foldl (build_step_rules minusEarliest bp t) (some (rc0, rt, est))
          = some (rcx, rtx, est) := by
  intro combo
  induction combo with
  | nil => intro rc0 rt est; exact ⟨rc0, rt, rfl⟩
  | cons r rest ih =>
    intro rc0 rt est
    rw [List.foldl_cons]
    cases r with
    | OreRobot => exact ih _ _ _
    | ClayRobot => exact ih _ _ _
    | ObsidianRobot => exact ih _ _ _
    | GeodeRobot =>
      have hstep : build_step_rules minusEarliest bp t (some (rc0, rt, est))
          RobotType.GeodeRobot
          = some ({ rc0 with geode := rc0.geode + 1 },
              subtract_one bp RobotType.GeodeRobot rt, est) := by
        simp [build_step_rules, minusEarliest, allRules]
      rw [hstep]
      exact ih _ _ _

theorem decision_step_rules_mE_grows
    (recurG : List Nat → Nat → ResourceBag → ResourceBag → ResourceBag →
      Option (List Nat × Nat))
    (bp : Blueprint) (rt rbt : ResourceBag) (t : Nat)
    (hrecS : ∀ ts est rt2 rbt2 rc2,
      (recurG ts est rt2 rbt2 rc2).isSome = true)
    (hrecG : ∀ ts est rt2 rbt2 rc2 o e,
      recurG ts est rt2 rbt2 rc2 = some (o, e) → ∀ x, x ∈ ts → x ∈ o)
    (q2 : List Nat) (ee2 : Nat) (abq2 : Bool) (combo : List RobotType) :
    ∃ (q2x : List Nat) (e2x : Nat) (ab2x : Bool),
      decision_step_rules minusEarliest recurG bp rt rbt t
          (some (q2, ee2, abq2)) combo = some (q2x, e2x, ab2x)
        ∧ ∀ x, x ∈ q2 → x ∈ q2x := by
  cases abq2 with
  | true => exact ⟨q2, ee2, true, rfl, fun x hx => hx⟩
  | false =>
    simp only [decision_step_rules]
    obtain ⟨rcm, rtm, happm⟩ := apply_build_rules_mE_isSome bp t combo
      ResourceBag.blank rt ee2
    have happm2 : apply_build_rules minusEarliest bp t combo rt ee2
        = some (rcm, rtm, ee2) := happm
    simp only [happm2]
    by_cases hpr : prune_triggers_rules minusEarliest t rbt rcm = true
    · rw [if_pos hpr]
      exact ⟨q2, ee2, true, rfl, fun x hx => hx⟩
    · rw [if_neg hpr]
      have hs := hrecS q2 ee2 rtm rbt rcm
      cases hr : recurG q2 ee2 rtm rbt rcm with
      | none => rw [hr] at hs; exact absurd hs (by simp)
      | some pr =>
        obtain ⟨o, e⟩ := pr
        exact ⟨o, e, false, rfl, hrecG q2 ee2 rtm rbt rcm o e hr⟩



theorem explore_minusEarliest_superset (bp : Blueprint) :
    ∀ (fuel : Nat) (ts1 : List Nat) (est : Nat) (rt rbt rc : ResourceBag)
      (t : Nat) (skip : Bool) (o1 : List Nat) (e1 : Nat)
      (ts2 : List Nat) (est0 : Nat),
      2 * t + (if skip = true then 1 else 2) ≤ fuel →
      explore bp fuel ts1 est rt rbt rc t skip = some (o1, e1) →
      (∀ x, x ∈ ts1 → x ∈ ts2) →
      ∃ (o2 : List Nat) (e2 : Nat),
        explore_rules minusEarliest bp fuel ts2 est0 rt rbt rc t skip
            = some (o2, e2)
          ∧ ∀ x, x ∈ o1 → x ∈ o2 := by
  intro fuel
  induction fuel with
  | zero =>
    intro ts1 est rt rbt rc t skip o1 e1 ts2 est0 hb h hsub
    exact Option.noConfusion h
  | succ f ih =>
    intro ts1 est rt rbt rc t skip o1 e1 ts2 est0 hb h hsub
    rw [explore_succ] at h
    rw [explore_rules_succ]
    by_cases ht : t = 0
    · rw [if_pos ht] at h
      rw [if_pos ht]
      simp only [Option.some.injEq, Prod.mk.injEq] at h
      obtain ⟨h1, _⟩ := h
      subst h1
      refine ⟨insert_total rt.geode ts2, est0, rfl, ?_⟩
      intro x hx
      rcases mem_insert_total x rt.geode ts1 hx with hm | hm
      · exact insert_total_mem_of_mem x rt.geode ts2 (hsub x hm)
      · rw [hm]
        exact insert_total_mem_self rt.geode ts2
    · rw [if_neg ht] at h
      rw [if_neg ht]
      by_cases hc : (!skip && decide (t > 1)) = true
      · rw [if_pos hc] at h
        rw [if_pos hc]
        have hskip : skip = false := by
          rcases Bool.eq_false_or_eq_true skip with hs | hs
          · rw [hs] at hc; simp at hc
          · exact hs
        rw [hskip] at hb
        simp at hb
        have hrecS : ∀ (pts : List Nat) (pest : Nat) (prt prbt prc :
            ResourceBag),
            (explore_rules minusEarliest bp f pts pest prt prbt prc t
              true).isSome = true := by
          intro pts pest prt prbt prc
          apply explore_rules_isSome_aux
          simp
          omega
        have hrecG : ∀ (pts : List Nat) (pest : Nat) (prt prbt prc :
            ResourceBag) (o : List Nat) (e : Nat),
            explore_rules minusEarliest bp f pts pest prt prbt prc t true
              = some (o, e) → ∀ x, x ∈ pts → x ∈ o := by
          intro pts pest prt prbt prc o e hcall
          exact explore_rules_totals_extend minusEarliest bp f pts pest prt
            prbt prc t true o e hcall
        have hstep : ∀ (a1 a2 : Option (List Nat × Nat × Bool))
            (combo : List RobotType),
            (∀ p1 px ab1, a1 = some (p1, px, ab1) →
              ∃ p2 py ab2, a2 = some (p2, py, ab2)
                ∧ (∀ x, x ∈ p1 → x ∈ p2) ∧ (ab1 = false → ab2 = false)) →
            ∀ p1 px ab1,
              decision_step
                (fun pts pest prt prbt prc =>
                  explore bp f pts pest prt prbt prc t true)
                bp rt rbt t a1 combo = some (p1, px, ab1) →
              ∃ p2 py ab2,
                decision_step_rules minusEarliest
                  (fun pts pest prt prbt prc =>
                    explore_rules minusEarliest bp f pts pest prt prbt prc t
                      true)
                  bp rt rbt t a2 combo = some (p2, py, ab2)
                ∧ (∀ x, x ∈ p1 → x ∈ p2) ∧ (ab1 = false → ab2 = false) := by
          intro a1 a2 combo hR p1 px ab1 heq
          cases a1 with
          | none =>
            simp only [decision_step] at heq
            exact Option.noConfusion heq
          | some trip1 =>
            obtain ⟨q1, ee1, abq⟩ := trip1
            obtain ⟨q2, ee2, abq2, ha2, hsubq, habq⟩ := hR q1 ee1 abq rfl
            subst ha2
            cases abq with
            | true =>
              simp only [decision_step, Option.some.injEq,
                Prod.mk.injEq] at heq
              obtain ⟨hq, hxx, hab⟩ := heq
              subst hq
              subst hab
              obtain ⟨q2x, e2x, ab2x, hg, hgrow⟩ :=
                decision_step_rules_mE_grows
                  (fun pts pest prt prbt prc =>
                    explore_rules minusEarliest bp f pts pest prt prbt prc t
                      true)
                  bp rt rbt t hrecS hrecG q2 ee2 abq2 combo
              exact ⟨q2x, e2x, ab2x, hg,
                fun x hxm => hgrow x (hsubq x hxm),
                fun hff => absurd hff (by decide)⟩
            | false =>
              have habq2 : abq2 = false := habq rfl
              subst habq2
              simp only [decision_step] at heq
              cases happ : apply_build bp t combo rt ee1 with
              | none =>
                simp only [happ, Option.some.injEq, Prod.mk.injEq] at heq
                obtain ⟨hq, hxx, hab⟩ := heq
                subst hq
                subst hab
                obtain ⟨q2x, e2x, ab2x, hg, hgrow⟩ :=
                  decision_step_rules_mE_grows
                    (fun pts pest prt prbt prc =>
                      explore_rules minusEarliest bp f pts pest prt prbt prc
                        t true)
                    bp rt rbt t hrecS hrecG q2 ee2 false combo
                exact ⟨q2x, e2x, ab2x, hg,
                  fun x hxm => hgrow x (hsubq x hxm),
                  fun hff => absurd hff (by decide)⟩
              | some tri =>
                obtain ⟨rcx, rtx, estx⟩ := tri
                simp only [happ] at heq
                have happG := apply_build_minusEarliest bp t combo rt ee1 ee2
                  rcx rtx estx happ
                simp only [decision_step_rules, happG,
                  prune_triggers_minusEarliest]
                by_cases hpr : prune_triggers t rbt rcx = true
                · rw [if_pos hpr] at heq
                  rw [if_pos hpr]
                  simp only [Option.some.injEq, Prod.mk.injEq] at heq
                  obtain ⟨hq, hxx, hab⟩ := heq
                  subst hq
                  subst hab
                  exact ⟨q2, ee2, true, rfl, hsubq,
                    fun hff => absurd hff (by decide)⟩
                · rw [if_neg hpr] at heq
                  rw [if_neg hpr]
                  cases hr : explore bp f q1 estx rtx rbt rcx t true with
                  | none =>
                    simp only [hr] at heq
                    exact Option.noConfusion heq
                  | some pr =>
                    obtain ⟨o1s, e1s⟩ := pr
                    simp only [hr, Option.some.injEq, Prod.mk.injEq] at heq
                    obtain ⟨hq, hxx, hab⟩ := heq
                    subst hq
                    subst hab
                    have hbi : 2 * t + (if true = true then 1 else 2) ≤ f :=
                      by simp; omega
                    obtain ⟨o2s, e2s, hgcall, hsubs⟩ :=
                      ih q1 estx rtx rbt rcx t true o1s e1s q2 ee2 hbi hr
                        hsubq
                    rw [hgcall]
                    exact ⟨o2s, e2s, false, rfl, hsubs, fun _ => rfl⟩
        have hinitrel : ∀ p1 px ab1,
            (some (ts1, est, false) : Option (List Nat × Nat × Bool))
              = some (p1, px, ab1) →
            ∃ p2 py ab2,
              (some (ts2, est0, false) : Option (List Nat × Nat × Bool))
                = some (p2, py, ab2)
              ∧ (∀ x, x ∈ p1 → x ∈ p2) ∧ (ab1 = false → ab2 = false) := by
          intro p1 px ab1 heq
          simp only [Option.some.injEq, Prod.mk.injEq] at heq
          obtain ⟨h1, _, h3⟩ := heq
          subst h1
          subst h3
          exact ⟨ts2, est0, false, rfl, hsub, fun _ => rfl⟩
        have hrel2 := foldl_rel
          (fun (a1 a2 : Option (List Nat × Nat × Bool)) =>
            ∀ p1 px ab1, a1 = some (p1, px, ab1) →
              ∃ p2 py ab2, a2 = some (p2, py, ab2)
                ∧ (∀ x, x ∈ p1 → x ∈ p2) ∧ (ab1 = false → ab2 = false))
          (decision_step
            (fun pts pest prt prbt prc =>
              explore bp f pts pest prt prbt prc t true)
            bp rt rbt t)
          (decision_step_rules minusEarliest
            (fun pts pest prt prbt prc =>
              explore_rules minusEarliest bp f pts pest prt prbt prc t true)
            bp rt rbt t)
          hstep (build_options bp rt) (some (ts1, est, false))
          (some (ts2, est0, false)) hinitrel
        cases hph : (build_options bp rt).foldl
            (decision_step
              (fun pts pest prt prbt prc =>
                explore bp f pts pest prt prbt prc t true)
              bp rt rbt t)
            (some (ts1, est, false)) with
        | none =>
          rw [hph] at h
          exact Option.noConfusion h
        | some trip =>
          obtain ⟨p1, px, ab1⟩ := trip
          rw [hph] at h
          rw [hph] at hrel2
          obtain ⟨p2, py, ab2, hph2, hsubp, habp⟩ := hrel2 p1 px ab1 rfl
          rw [hph2]
          cases ab1 with
          | true =>
            simp only [Option.some.injEq, Prod.mk.injEq] at h
            obtain ⟨h1, _⟩ := h
            subst h1
            cases ab2 with
            | true => exact ⟨p2, py, rfl, hsubp⟩
            | false =>
              have hS := explore_rules_isSome_aux minusEarliest bp f p2 py
                (ResourceBag.new (rt.ore + rbt.ore) (rt.clay + rbt.clay)
                  (rt.obsidian + rbt.obsidian) (rt.geode + rbt.geode))
                (ResourceBag.new (rbt.ore + rc.ore) (rbt.clay + rc.clay)
                  (rbt.obsidian + rc.obsidian) (rbt.geode + rc.geode))
                ResourceBag.blank (t - 1) false (by simp; omega)
              obtain ⟨⟨o2, e2⟩, hcall⟩ := Option.isSome_iff_exists.mp hS
              show ∃ (o2 : List Nat) (e2 : Nat),
                explore_rules minusEarliest bp f p2 py
                  (ResourceBag.new (rt.ore + rbt.ore) (rt.clay + rbt.clay)
                    (rt.obsidian + rbt.obsidian) (rt.geode + rbt.geode))
                  (ResourceBag.new (rbt.ore + rc.ore) (rbt.clay + rc.clay)
                    (rbt.obsidian + rc.obsidian) (rbt.geode + rc.geode))
                  ResourceBag.blank (t - 1) false = some (o2, e2)
                  ∧ ∀ x, x ∈ p1 → x ∈ o2
              rw [hcall]
              refine ⟨o2, e2, rfl, ?_⟩
              intro x hx
              exact explore_rules_totals_extend minusEarliest bp f p2 py _ _
                _ (t - 1) false o2 e2 hcall x (hsubp x hx)
          | false =>
            have hab2 : ab2 = false := habp rfl
            subst hab2
            have hbadv : 2 * (t - 1) + (if false = true then 1 else 2) ≤ f :=
              by simp; omega
            exact ih p1 px
              (ResourceBag.new (rt.ore + rbt.ore) (rt.clay + rbt.clay)
                (rt.obsidian + rbt.obsidian) (rt.geode + rbt.geode))
              (ResourceBag.new (rbt.ore + rc.ore) (rbt.clay + rc.clay)
                (rbt.obsidian + rc.obsidian) (rbt.geode + rc.geode))
              ResourceBag.blank (t - 1) false o1 e1 p2 py hbadv h hsubp
      · rw [if_neg hc] at h
        rw [if_neg hc]
        have hbadv : 2 * (t - 1) + (if false = true then 1 else 2) ≤ f := by
          simp
          rcases Bool.eq_false_or_eq_true skip with hs | hs
          · rw [hs] at hb
            simp at hb
            omega
          · rw [hs] at hb hc
            simp at hb hc
            omega
        exact ih ts1 est
          (ResourceBag.new (rt.ore + rbt.ore) (rt.clay + rbt.clay)
            (rt.obsidian + rbt.obsidian) (rt.geode + rbt.geode))
          (ResourceBag.new (rbt.ore + rc.ore) (rbt.clay + rc.clay)
            (rbt.obsidian + rc.obsidian) (rbt.geode + rc.geode))
          ResourceBag.blank (t - 1) false o1 e1 ts2 est0 hbadv h hsub



/-- C3 (counterexample): the pruned search does not return the same maximum
as the search with a single rule removed: at `cheapBlueprint` with horizon
4, the full search returns quality 0 while the search without the
14-or-less-ore threshold rule returns quality 2. -/
theorem C3_counterexample :
    simulate_blueprint cheapBlueprint 4 = some 0
      ∧ simulate_rules minusOre14 cheapBlueprint 4 = some 2
      ∧ (some 0 : Option Nat) ≠ some 2 :=
  ⟨by decide, by decide, by decide⟩

/-- C3 (amended): removing the earliest-geode-robot-time device never
decreases the computed maximum — the totals recorded by the full search are
a subset of those recorded without that device, so the maximum can only
grow — while removing a threshold rule need not preserve the result: it can
strictly increase it, as at `cheapBlueprint` with horizon 4, where the full
search yields 0 and the search without the 14-or-less-ore rule yields 2. -/
theorem C3_remove_rule_effects :
    (∀ (bp : Blueprint) (t : Nat) (m : Nat),
        simulate_blueprint bp t = some m →
        ∃ m2, simulate_rules minusEarliest bp t = some m2 ∧ m ≤ m2)
      ∧ simulate_blueprint cheapBlueprint 4 = some 0
      ∧ simulate_rules minusOre14 cheapBlueprint 4 = some 2 := by
  refine ⟨?_, by decide, by decide⟩
  intro bp t m h
  unfold simulate_blueprint at h
  cases hE : explore bp (2 * t + 2) [0] 0 ResourceBag.blank
      (ResourceBag.new 1 0 0 0) ResourceBag.blank t false with
  | none => rw [hE] at h; exact Option.noConfusion h
  | some pr =>
    obtain ⟨ts, e⟩ := pr
    simp only [hE] at h
    cases hmax : ts.max? with
    | none => rw [hmax] at h; exact Option.noConfusion h
    | some mx =>
      rw [hmax] at h
      simp only [Option.map] at h
      simp only [Option.some.injEq] at h
      obtain ⟨hmem, hub⟩ := List.max?_eq_some_iff'.mp hmax
      obtain ⟨o2, e2, hcall, hsub⟩ := explore_minusEarliest_superset bp
        (2 * t + 2) [0] 0 ResourceBag.blank (ResourceBag.new 1 0 0 0)
        ResourceBag.blank t false ts e [0] 0 (by simp) hE
        (fun x hx => hx)
      have hmem2 : mx ∈ o2 := hsub mx hmem
      cases hmax2 : o2.max? with
      | none =>
        have : o2 = [] := List.max?_eq_none_iff.mp hmax2
        rw [this] at hmem2
        exact absurd hmem2 (by simp)
      | some mx2 =>
        obtain ⟨_, hub2⟩ := List.max?_eq_some_iff'.mp hmax2
        refine ⟨mx2 * bp.id, ?_, ?_⟩
        · simp only [simulate_rules, hcall]
          rw [hmax2]
          rfl
        · rw [← h]
          exact Nat.mul_le_mul_right bp.id (hub2 mx hmem2)

/-- Closed witness for `C3_remove_rule_effects` at a concrete input. -/
theorem C3_remove_rule_effects_witness :
    ∃ m2, simulate_rules minusEarliest zeroBlueprint 2 = some m2
      ∧ 0 ≤ m2 :=
  C3_remove_rule_effects.1 zeroBlueprint 2 0 (by decide)

end Day19
